import Mathlib

set_option linter.unusedVariables false

/-!
Shallow embedding of the lambda canary core (src/lambda/index.js).

The handler is an async function; we model one invocation as a pure
function of the invocation input together with a `RunEnv` describing how
the external world answers each effectful call of the run:
* `clock k` is the value returned by the k-th millisecond-epoch clock read
  of the run (iteration i reads calls 2*i and 2*i+1 for start and end of
  the probe; the storage-key read after the loop is call 2*n).  Real system
  time is non-decreasing, which appears as a `Monotone` hypothesis where a
  claim needs it.
* `respond i` is how the network answers the i-th GET issued by `checkUrl`:
  either a response carrying a status code, or a transport-level error.
* `metricOk i` tells whether the i-th metrics-sink send of the run
  succeeds; `s3Ok` whether the storage put succeeds.
The handler's observable effects are collected in an `Event` trace, in the
order the awaits occur in the source.

The invocation input `event.urls` is an ordered mapping of names to URLs;
we embed it as an association list in iteration (insertion) order, and
`Option` captures presence/absence of the field.
-/

/-- How the network answers one GET issued by `checkUrl`
(src/lambda/index.js:50-62): either an HTTP response carrying a status
code, or a transport-level error (DNS failure, connection refused, TLS
failure, timeout) delivered on the error channel. -/
inductive ProbeResponse where
  | response (statusCode : Nat)
  | transportError (message : String)
deriving DecidableEq, Repr

/-- `checkUrl` (src/lambda/index.js:50-62): the returned promise resolves
when `res.statusCode >= 200 && res.statusCode < 300`, rejects with
`Status code: <code>` on any other status code, and rejects with the error
itself on a transport error.  A rejected promise is an `Except.error`. -/
def checkUrl (r : ProbeResponse) : Except String Unit :=
  match r with
  | ProbeResponse.response c =>
      if 200 ≤ c ∧ c < 300 then Except.ok ()
      else Except.error ("Status code: " ++ toString c)
  | ProbeResponse.transportError e => Except.error e

/-- One element of the `results` array built by the handler loop
(src/lambda/index.js:26): `results.push(\x7b name, url, status, latency \x7d)`.
The status is the JS string; the latency is `Date.now() - start`, an
integer difference of clock reads. -/
structure ResultEntry where
  name : String
  url : String
  status : String
  latency : Int
deriving DecidableEq, Repr

/-- The sample handed to the metrics sink by `putMetricData`
(src/lambda/index.js:64-76): namespace, metric name, dimensions, unit and
value of the single `MetricData` element. -/
structure MetricSample where
  nameSpace : String
  metricName : String
  dimensions : List (String × String)
  unit : String
  value : Int
deriving DecidableEq, Repr

/-- Observable external effects of one handler invocation, in source
order: a GET issued by `checkUrl`, a metrics-sink send (with its success
flag), and the storage put of the log record (bucket, key, body, success
flag). -/
inductive Event where
  | probe (url : String)
  | metricSubmit (sample : MetricSample) (ok : Bool)
  | s3Put (bucket : String) (key : String) (body : String) (ok : Bool)
deriving DecidableEq, Repr

/-- `putMetricData` (src/lambda/index.js:64-84): builds one sample under
namespace `LambdaFunctionMetrics` and sends it; the `try/catch` swallows a
failed send (it only logs to the console), so the call returns normally
either way and the run continues.  `ok` records whether the send
succeeded.  The JS parameter default `dimensions = []` is passed
explicitly by the call site that relies on it. -/
def putMetricData (ok : Bool) (metricName : String) (value : Int) (unit : String)
    (dimensions : List (String × String)) : List Event :=
  [Event.metricSubmit
    { nameSpace := "LambdaFunctionMetrics", metricName := metricName,
      dimensions := dimensions, unit := unit, value := value } ok]

/-- The external world of one handler invocation (see the module
comment). -/
structure RunEnv where
  clock : Nat → Nat
  respond : Nat → ProbeResponse
  metricOk : Nat → Bool
  s3Ok : Bool
  bucketName : String

/-- What one handler invocation produces: the `results` array, the final
`availableCount`, and the trace of external effects. -/
structure RunOutput where
  results : List ResultEntry
  availableCount : Nat
  trace : List Event
deriving Repr

/-- The loop body of `handler` (src/lambda/index.js:15-30), one iteration
per `[name, url]` entry of `Object.entries(urls)`, carrying the iteration
index `i`.  Each iteration: reads the clock (`start`), initializes the
status to the placeholder `"unknown"` (line 17), awaits `checkUrl(url)` —
the promise either resolves (status `"available"`, `availableCount++`) or
rejects into the `catch` (status `"unavailable"`), so the placeholder is
overwritten on every path — reads the clock again for `latency`, pushes
the entry, and awaits the per-target `URLLatency` metric send. -/
def runLoop (env : RunEnv) : List (String × String) → Nat →
    List ResultEntry × Nat × List Event
  | [], _ => ([], 0, [])
  | (name, url) :: rest, i =>
    let start : Int := (env.clock (2 * i) : Int)
    let statusInit : String := "unknown"
    let si : String × Nat :=
      match checkUrl (env.respond i) with
      | Except.ok _ => ("available", 1)
      | Except.error _ => ("unavailable", 0)
    let latency : Int := (env.clock (2 * i + 1) : Int) - start
    let entry : ResultEntry :=
      { name := name, url := url, status := si.1, latency := latency }
    let mev := putMetricData (env.metricOk i) "URLLatency" latency "Milliseconds"
      [("URL", name)]
    let r := runLoop env rest (i + 1)
    (entry :: r.1, si.2 + r.2.1, Event.probe url :: mev ++ r.2.2)

/-- Line 35 of src/lambda/index.js, the body of the `results.map`: the JS
template literal rendering one entry. -/
def renderLine (r : ResultEntry) : String :=
  "Name: " ++ r.name ++ ", URL: " ++ r.url ++ ", Status: " ++ r.status ++
    ", Latency: " ++ toString r.latency ++ "ms"

/-- Line 35 of src/lambda/index.js: `results.map(...).join(backslash-n)`. -/
def renderLog (results : List ResultEntry) : String :=
  String.intercalate "\n" (results.map renderLine)

/-- Line 38 of src/lambda/index.js: the `Key` template literal.  Outside
the interpolation its literal text is `logs / ` — with a space on each
side of the slash — followed by the `Date.now()` value and `.txt`. -/
def logKey (t : Nat) : String := "logs / " ++ toString t ++ ".txt"

/-- The built-in fallback mapping (src/lambda/index.js:8-11), used when
the invocation input has no `urls` field. -/
def defaultUrls : List (String × String) :=
  [("Google", "https://www.google.com/"), ("Youtube", "https://www.youtube.com/")]

/-- Line 8 of src/lambda/index.js: `event.urls || <default>`.  An absent
field is `none` and selects the built-in default. -/
def urlsOf : Option (List (String × String)) → List (String × String)
  | some u => u
  | none => defaultUrls

/-- `handler` (src/lambda/index.js:7-48): chooses `event.urls` or the
built-in default, runs the per-target loop, awaits the single aggregate
`AvailableURLCount` send (line 33 — the `dimensions` argument is the JS
default `[]`), renders the log body, and attempts the storage put with the
key of line 38; the put's `try/catch` swallows a failure, so the handler
returns normally either way. -/
def handler (eventUrls : Option (List (String × String))) (env : RunEnv) : RunOutput :=
  let urls := urlsOf eventUrls
  let r := runLoop env urls 0
  let aggEv := putMetricData (env.metricOk urls.length) "AvailableURLCount"
    (r.2.1 : Int) "Count" []
  let log := renderLog r.1
  let key := logKey (env.clock (2 * urls.length))
  { results := r.1, availableCount := r.2.1,
    trace := r.2.2 ++ aggEv ++ [Event.s3Put env.bucketName key log env.s3Ok] }

/-! ### Characterization of one run

Closed forms for the three components of the loop's accumulator, proved
by induction over the target list.  These are proof infrastructure; the
embedded program is `handler` above. -/

/-- The status string the `try/catch` of the loop body assigns for a given
network answer. -/
def statusFor (r : ProbeResponse) : String :=
  match checkUrl r with
  | Except.ok _ => "available"
  | Except.error _ => "unavailable"

/-- The latency the i-th iteration computes: difference of its two clock
reads. -/
def latencyAt (env : RunEnv) (i : Nat) : Int :=
  (env.clock (2 * i + 1) : Int) - (env.clock (2 * i) : Int)

/-- The entry the i-th iteration pushes for target `p = (name, url)`. -/
def entryAt (env : RunEnv) (i : Nat) (p : String × String) : ResultEntry :=
  { name := p.1, url := p.2, status := statusFor (env.respond i),
    latency := latencyAt env i }

/-- The per-target latency sample of line 29. -/
def latencySample (name : String) (v : Int) : MetricSample :=
  { nameSpace := "LambdaFunctionMetrics", metricName := "URLLatency",
    dimensions := [("URL", name)], unit := "Milliseconds", value := v }

/-- The aggregate availability sample of line 33. -/
def aggregateSample (count : Nat) : MetricSample :=
  { nameSpace := "LambdaFunctionMetrics", metricName := "AvailableURLCount",
    dimensions := [], unit := "Count", value := (count : Int) }

/-- The two events the i-th iteration emits: its GET and its latency
metric send. -/
def targetEvents (env : RunEnv) (i : Nat) (p : String × String) : List Event :=
  [Event.probe p.2,
   Event.metricSubmit (latencySample p.1 (latencyAt env i)) (env.metricOk i)]

/-- Closed form of the loop: entries are `entryAt` over the indexed
targets, the counter counts the `"available"` entries, and the trace is
the concatenation of each iteration's two events. -/
lemma runLoop_eq (env : RunEnv) (u : List (String × String)) (i : Nat) :
    runLoop env u i =
      ((u.enumFrom i).map (fun q => entryAt env q.1 q.2),
       List.countP (fun r => r.status == "available")
         ((u.enumFrom i).map (fun q => entryAt env q.1 q.2)),
       (u.enumFrom i).flatMap (fun q => targetEvents env q.1 q.2)) := by
  induction u generalizing i with
  | nil => rfl
  | cons p rest ih =>
    obtain ⟨name, url⟩ := p
    simp only [runLoop, ih (i + 1), List.enumFrom, List.map_cons,
      List.flatMap_cons, List.countP_cons, putMetricData, targetEvents]
    cases h : checkUrl (env.respond i) with
    | ok v =>
      simp [entryAt, statusFor, latencyAt, latencySample, h, Nat.add_comm]
    | error e =>
      simp [entryAt, statusFor, latencyAt, latencySample, h]

/-- The handler's `results` in closed form. -/
lemma handler_results_eq (e : Option (List (String × String))) (env : RunEnv) :
    (handler e env).results =
      ((urlsOf e).enumFrom 0).map (fun q => entryAt env q.1 q.2) := by
  simp [handler, runLoop_eq]

/-- The handler's `availableCount` counts the `"available"` entries. -/
lemma handler_count_eq (e : Option (List (String × String))) (env : RunEnv) :
    (handler e env).availableCount =
      List.countP (fun r => r.status == "available") (handler e env).results := by
  simp [handler, runLoop_eq]

/-- The handler's trace in closed form: per-target probe+latency pairs in
input order, then the single aggregate send, then the single storage
put. -/
lemma handler_trace_eq (e : Option (List (String × String))) (env : RunEnv) :
    (handler e env).trace =
      ((urlsOf e).enumFrom 0).flatMap (fun q => targetEvents env q.1 q.2) ++
      [Event.metricSubmit (aggregateSample (handler e env).availableCount)
         (env.metricOk (urlsOf e).length),
       Event.s3Put env.bucketName (logKey (env.clock (2 * (urlsOf e).length)))
         (renderLog (handler e env).results) env.s3Ok] := by
  simp [handler, runLoop_eq, putMetricData, aggregateSample]

/-! ### Trace observations -/

/-- Select a metric-sink send of a given metric name from one event. -/
def metricExtract (n : String) : Event → Option (MetricSample × Bool)
  | Event.metricSubmit s ok => if s.metricName = n then some (s, ok) else none
  | _ => none

/-- Select a storage put from one event. -/
def s3Extract : Event → Option (String × String × String × Bool)
  | Event.s3Put b k body ok => some (b, k, body, ok)
  | _ => none

/-- All sends of the named metric in a run, in order. -/
def metricEventsNamed (n : String) (out : RunOutput) : List (MetricSample × Bool) :=
  out.trace.filterMap (metricExtract n)

/-- All storage puts of a run, in order. -/
def s3PutEvents (out : RunOutput) : List (String × String × String × Bool) :=
  out.trace.filterMap s3Extract

lemma targets_filterMap_s3 (env : RunEnv) (u : List (String × String)) (i : Nat) :
    ((u.enumFrom i).flatMap (fun q => targetEvents env q.1 q.2)).filterMap s3Extract
      = [] := by
  induction u generalizing i with
  | nil => rfl
  | cons p rest ih =>
    rw [show List.enumFrom i (p :: rest) = (i, p) :: List.enumFrom (i + 1) rest from rfl,
      List.flatMap_cons, List.filterMap_append, ih (i + 1)]
    simp [targetEvents, s3Extract]

lemma targets_filterMap_latency (env : RunEnv) (u : List (String × String)) (i : Nat) :
    ((u.enumFrom i).flatMap (fun q => targetEvents env q.1 q.2)).filterMap
        (metricExtract "URLLatency")
      = (u.enumFrom i).map
          (fun q => (latencySample q.2.1 (latencyAt env q.1), env.metricOk q.1)) := by
  induction u generalizing i with
  | nil => rfl
  | cons p rest ih =>
    rw [show List.enumFrom i (p :: rest) = (i, p) :: List.enumFrom (i + 1) rest from rfl,
      List.flatMap_cons, List.filterMap_append, ih (i + 1), List.map_cons]
    simp [targetEvents, metricExtract, latencySample]

lemma targets_filterMap_aggregate (env : RunEnv) (u : List (String × String)) (i : Nat) :
    ((u.enumFrom i).flatMap (fun q => targetEvents env q.1 q.2)).filterMap
        (metricExtract "AvailableURLCount")
      = [] := by
  induction u generalizing i with
  | nil => rfl
  | cons p rest ih =>
    rw [show List.enumFrom i (p :: rest) = (i, p) :: List.enumFrom (i + 1) rest from rfl,
      List.flatMap_cons, List.filterMap_append, ih (i + 1)]
    simp [targetEvents, metricExtract, latencySample]

/-- Every run performs exactly one storage put: the rendered body under
the timestamp key, against the configured bucket. -/
lemma s3PutEvents_handler (e : Option (List (String × String))) (env : RunEnv) :
    s3PutEvents (handler e env) =
      [(env.bucketName, logKey (env.clock (2 * (urlsOf e).length)),
        renderLog (handler e env).results, env.s3Ok)] := by
  rw [s3PutEvents, handler_trace_eq]
  simp [List.filterMap_append, targets_filterMap_s3, s3Extract, metricExtract]

/-- Every run sends exactly one latency sample per target, in input
order. -/
lemma latencyEvents_handler (e : Option (List (String × String))) (env : RunEnv) :
    metricEventsNamed "URLLatency" (handler e env) =
      ((urlsOf e).enumFrom 0).map
        (fun q => (latencySample q.2.1 (latencyAt env q.1), env.metricOk q.1)) := by
  rw [metricEventsNamed, handler_trace_eq]
  simp [List.filterMap_append, targets_filterMap_latency, metricExtract,
    aggregateSample, s3Extract]

/-- Every run sends exactly one aggregate sample, carrying the final
`availableCount`. -/
lemma aggregateEvents_handler (e : Option (List (String × String))) (env : RunEnv) :
    metricEventsNamed "AvailableURLCount" (handler e env) =
      [(aggregateSample (handler e env).availableCount,
        env.metricOk (urlsOf e).length)] := by
  rw [metricEventsNamed, handler_trace_eq]
  simp [List.filterMap_append, targets_filterMap_aggregate, metricExtract,
    aggregateSample, s3Extract]

/-! ### Concrete environments used by witnesses -/

/-- A run whose clock advances one millisecond per read, whose probes all
answer HTTP 200, and whose sink and store calls all succeed. -/
def envA : RunEnv :=
  { clock := fun k => 1000 + k, respond := fun _ => ProbeResponse.response 200,
    metricOk := fun _ => true, s3Ok := true,
    bucketName := "lambdacanary-logs-bucket062024" }

/-- A run whose probes all fail at the transport level and whose sink and
store calls all fail. -/
def envB : RunEnv :=
  { clock := fun k => k, respond := fun _ => ProbeResponse.transportError "e",
    metricOk := fun _ => false, s3Ok := false, bucketName := "b" }

/-- Like `envB` but with every sink and store call succeeding and another
bucket, to compare runs that differ only in their collaborators'
failures. -/
def envB2 : RunEnv :=
  { clock := fun k => k, respond := fun _ => ProbeResponse.transportError "e",
    metricOk := fun _ => true, s3Ok := true, bucketName := "c" }

/-! ### The claims -/

/-- C1: for every non-empty input mapping, the handler's RunResult has
one entry per target whose name and url fields match the input pairing,
in the input's iteration (insertion) order. -/
theorem runOnce_results_match_input (env : RunEnv) (urls : List (String × String))
    (hne : urls ≠ []) :
    (handler (some urls) env).results.length = urls.length ∧
    (handler (some urls) env).results.map (fun r => (r.name, r.url)) = urls := by
  constructor
  · rw [handler_results_eq]
    simp [urlsOf, List.enumFrom_length]
  · rw [handler_results_eq, List.map_map]
    have hfun : ((fun r : ResultEntry => (r.name, r.url)) ∘
        fun q : Nat × String × String => entryAt env q.1 q.2) = Prod.snd := by
      funext q
      rfl
    rw [hfun]
    exact List.enumFrom_map_snd 0 urls

theorem runOnce_results_match_input_witness :
    (handler (some [("Google", "https://www.google.com/")]) envA).results.length = 1 ∧
    (handler (some [("Google", "https://www.google.com/")]) envA).results.map
      (fun r => (r.name, r.url)) = [("Google", "https://www.google.com/")] :=
  runOnce_results_match_input envA [("Google", "https://www.google.com/")]
    (List.cons_ne_nil _ _)

/-- C2: the final `availableCount` equals the number of result entries
whose status is `"available"`, never exceeds the number of entries, and is
the value carried by every `AvailableURLCount` sample the run sends. -/
theorem aggregate_availableCount (eventUrls : Option (List (String × String)))
    (env : RunEnv) :
    (handler eventUrls env).availableCount =
      ((handler eventUrls env).results.filter (fun r => r.status == "available")).length ∧
    (handler eventUrls env).availableCount ≤ (handler eventUrls env).results.length ∧
    ∀ s ok, (s, ok) ∈ metricEventsNamed "AvailableURLCount" (handler eventUrls env) →
      s.value = ((handler eventUrls env).availableCount : Int) := by
  refine ⟨?_, ?_, ?_⟩
  · rw [handler_count_eq, List.countP_eq_length_filter]
  · rw [handler_count_eq]
    exact List.countP_le_length _
  · intro s ok hmem
    rw [aggregateEvents_handler] at hmem
    rw [List.mem_singleton] at hmem
    have hs : s = aggregateSample (handler eventUrls env).availableCount :=
      congrArg Prod.fst hmem
    rw [hs]
    rfl

theorem aggregate_availableCount_witness :
    (aggregateSample 0).value =
      (((handler (some [("A", "u")]) envB).availableCount : Nat) : Int) :=
  (aggregate_availableCount (some [("A", "u")]) envB).2.2 (aggregateSample 0) false
    (by decide)

/-- C3: a probe classifies `"available"` exactly when the response status
code lies in [200, 300); any other status code and any transport error
classify `"unavailable"`; and every target of a run yields an entry whose
status is exactly that classification — a probe failure is absorbed by the
per-target `try/catch`, never propagated. -/
theorem checkUrl_classification :
    (∀ c : Nat, checkUrl (ProbeResponse.response c) = Except.ok () ↔ (200 ≤ c ∧ c < 300)) ∧
    (∀ e : String, checkUrl (ProbeResponse.transportError e) = Except.error e) ∧
    (∀ (env : RunEnv) (u : List (String × String)) (i : Nat) (p : String × String),
      u[i]? = some p →
      ∃ r, (handler (some u) env).results[i]? = some r ∧
        r.status = match checkUrl (env.respond i) with
          | Except.ok _ => "available"
          | Except.error _ => "unavailable") := by
  refine ⟨?_, ?_, ?_⟩
  · intro c
    by_cases h : 200 ≤ c ∧ c < 300
    · simp [checkUrl, h]
    · simp [checkUrl, h]
  · intro e
    rfl
  · intro env u i p hp
    refine ⟨entryAt env i p, ?_, rfl⟩
    rw [handler_results_eq]
    simp [urlsOf, List.getElem?_map, List.getElem?_enumFrom, hp]

theorem checkUrl_classification_witness :
    ∃ r, (handler (some [("A", "u")]) envB).results[0]? = some r ∧
      r.status = match checkUrl (envB.respond 0) with
        | Except.ok _ => "available"
        | Except.error _ => "unavailable" :=
  checkUrl_classification.2.2 envB [("A", "u")] 0 ("A", "u") rfl

/-- C4: the storage key the handler actually builds is
`logs / <timestamp>.txt` — the template literal of line 38 puts a space on
each side of the slash — so it is not the `logs/` prefix immediately
followed by the timestamp that the spec's key convention states. -/
theorem logKey_spaces_around_slash :
    logKey 1718000000000 = "logs / 1718000000000.txt" ∧
    logKey 1718000000000 ≠ "logs/1718000000000.txt" ∧
    s3PutEvents (handler (some [("A", "u")]) envB) =
      [("b", "logs / 2.txt",
        "Name: A, URL: u, Status: unavailable, Latency: 1ms", false)] := by
  refine ⟨rfl, by decide, by decide⟩

/-- C5: each run persists exactly one record whose body is the entries
rendered as `Name: .., URL: .., Status: .., Latency: ..ms` lines joined by
a single newline in RunResult order; the body is a function of the
RunResult alone, so runs with equal RunResults persist equal bodies. -/
theorem report_rendering :
    (∀ (e : Option (List (String × String))) (env : RunEnv),
      s3PutEvents (handler e env) =
        [(env.bucketName, logKey (env.clock (2 * (urlsOf e).length)),
          renderLog (handler e env).results, env.s3Ok)]) ∧
    (∀ rs : List ResultEntry,
      renderLog rs = String.intercalate "\n" (rs.map (fun r =>
        "Name: " ++ r.name ++ ", URL: " ++ r.url ++ ", Status: " ++ r.status ++
          ", Latency: " ++ toString r.latency ++ "ms"))) ∧
    (∀ (e1 e2 : Option (List (String × String))) (env1 env2 : RunEnv),
      (handler e1 env1).results = (handler e2 env2).results →
      (s3PutEvents (handler e1 env1)).map (fun q => q.2.2.1) =
        (s3PutEvents (handler e2 env2)).map (fun q => q.2.2.1)) := by
  refine ⟨s3PutEvents_handler, fun rs => rfl, ?_⟩
  intro e1 e2 env1 env2 h
  rw [s3PutEvents_handler, s3PutEvents_handler]
  simp [h]

theorem report_rendering_witness :
    (s3PutEvents (handler (some [("A", "u")]) envB)).map (fun q => q.2.2.1) =
      (s3PutEvents (handler (some [("A", "u")]) envB2)).map (fun q => q.2.2.1) :=
  report_rendering.2.2 (some [("A", "u")]) (some [("A", "u")]) envB envB2 rfl

/-- C6: when every metrics-sink send fails, the handler still returns a
RunResult with one entry per target in input order, still performs its
single storage put, and the RunResult is identical to the one produced
when every send succeeds — sink failures are isolated. -/
theorem metric_failure_isolated (env : RunEnv) (u : List (String × String))
    (hfail : ∀ i, env.metricOk i = false) :
    (handler (some u) env).results.map (fun r => (r.name, r.url)) = u ∧
    (handler (some u) env).results.length = u.length ∧
    s3PutEvents (handler (some u) env) =
      [(env.bucketName, logKey (env.clock (2 * u.length)),
        renderLog (handler (some u) env).results, env.s3Ok)] ∧
    (handler (some u) env).results =
      (handler (some u) { env with metricOk := fun _ => true }).results := by
  refine ⟨?_, ?_, s3PutEvents_handler (some u) env, ?_⟩
  · rw [handler_results_eq, List.map_map]
    have hfun : ((fun r : ResultEntry => (r.name, r.url)) ∘
        fun q : Nat × String × String => entryAt env q.1 q.2) = Prod.snd := by
      funext q
      rfl
    rw [hfun]
    exact List.enumFrom_map_snd 0 u
  · rw [handler_results_eq]
    simp [urlsOf, List.enumFrom_length]
  · rw [handler_results_eq, handler_results_eq]
    rfl

theorem metric_failure_isolated_witness :
    (handler (some [("A", "u")]) envB).results.map (fun r => (r.name, r.url)) =
      [("A", "u")] :=
  (metric_failure_isolated envB [("A", "u")] (fun i => rfl)).1

/-- C7: over n targets a run sends exactly n latency samples — one per
target, unit Milliseconds, dimension URL set to the target's name, emitted
inline right after that target's probe — and exactly one aggregate sample
(unit Count, no dimensions, value `availableCount`) after all targets. -/
theorem metrics_per_run (env : RunEnv) (u : List (String × String)) :
    (handler (some u) env).trace =
      (u.enumFrom 0).flatMap (fun q =>
        [Event.probe q.2.2,
         Event.metricSubmit (latencySample q.2.1 (latencyAt env q.1))
           (env.metricOk q.1)]) ++
      [Event.metricSubmit (aggregateSample (handler (some u) env).availableCount)
         (env.metricOk u.length),
       Event.s3Put env.bucketName (logKey (env.clock (2 * u.length)))
         (renderLog (handler (some u) env).results) env.s3Ok] ∧
    metricEventsNamed "URLLatency" (handler (some u) env) =
      (u.enumFrom 0).map
        (fun q => (latencySample q.2.1 (latencyAt env q.1), env.metricOk q.1)) ∧
    (metricEventsNamed "URLLatency" (handler (some u) env)).length = u.length ∧
    metricEventsNamed "AvailableURLCount" (handler (some u) env) =
      [(aggregateSample (handler (some u) env).availableCount,
        env.metricOk u.length)] := by
  refine ⟨handler_trace_eq (some u) env, latencyEvents_handler (some u) env, ?_,
    aggregateEvents_handler (some u) env⟩
  rw [latencyEvents_handler]
  simp [urlsOf, List.enumFrom_length]

/-- C8: when the invocation input has no `urls` field, the handler runs
over exactly the built-in default set — Google and Youtube, in that
order. -/
theorem default_targets (env : RunEnv) :
    handler none env = handler (some defaultUrls) env ∧
    (handler none env).results.map (fun r => (r.name, r.url)) =
      [("Google", "https://www.google.com/"), ("Youtube", "https://www.youtube.com/")] := by
  exact ⟨rfl, rfl⟩

/-- C9: every result entry records a latency — the difference of its
iteration's two clock reads, whatever the probe outcome was — and under a
non-decreasing system clock that latency is non-negative. -/
theorem latency_nonneg_recorded (env : RunEnv) (u : List (String × String))
    (hmono : Monotone env.clock) (i : Nat) (p : String × String)
    (hp : u[i]? = some p) :
    ∃ r, (handler (some u) env).results[i]? = some r ∧
      r.latency = (env.clock (2 * i + 1) : Int) - (env.clock (2 * i) : Int) ∧
      0 ≤ r.latency := by
  refine ⟨entryAt env i p, ?_, rfl, ?_⟩
  · rw [handler_results_eq]
    simp [urlsOf, List.getElem?_map, List.getElem?_enumFrom, hp]
  · show (0 : Int) ≤ latencyAt env i
    rw [latencyAt, Int.sub_nonneg]
    exact_mod_cast hmono (Nat.le_succ (2 * i))

theorem latency_nonneg_recorded_witness :
    ∃ r, (handler (some [("A", "u")]) envA).results[0]? = some r ∧
      r.latency = (envA.clock 1 : Int) - (envA.clock 0 : Int) ∧
      0 ≤ r.latency :=
  latency_nonneg_recorded envA [("A", "u")]
    (fun a b h => Nat.add_le_add_left h 1000) 0 ("A", "u") rfl

/-- C10: every returned entry's status is exactly `"available"` or
`"unavailable"` — the placeholder `"unknown"` of line 17 never escapes the
`try/catch`; consequently every rendered log line's status segment is one
of those two strings, and a metric sample's context carries at most a
target name, never a status. -/
theorem status_never_unknown (e : Option (List (String × String))) (env : RunEnv) :
    (∀ r ∈ (handler e env).results,
      (r.status = "available" ∨ r.status = "unavailable") ∧ r.status ≠ "unknown") ∧
    ((handler e env).results.map renderLine =
      (handler e env).results.map (fun r =>
        "Name: " ++ r.name ++ ", URL: " ++ r.url ++ ", Status: " ++
          (if r.status = "available" then "available" else "unavailable") ++
          ", Latency: " ++ toString r.latency ++ "ms")) ∧
    (∀ s ok, Event.metricSubmit s ok ∈ (handler e env).trace →
      s.dimensions = [] ∨
        ∃ r ∈ (handler e env).results, s.dimensions = [("URL", r.name)]) := by
  have hstat : ∀ r ∈ (handler e env).results,
      r.status = "available" ∨ r.status = "unavailable" := by
    intro r hr
    rw [handler_results_eq] at hr
    rcases List.mem_map.mp hr with ⟨q, hq, rfl⟩
    cases h : checkUrl (env.respond q.1) with
    | ok v => exact Or.inl (by simp [entryAt, statusFor, h])
    | error ex => exact Or.inr (by simp [entryAt, statusFor, h])
  refine ⟨fun r hr => ⟨hstat r hr, ?_⟩, ?_, ?_⟩
  · rcases hstat r hr with h | h <;> rw [h] <;> decide
  · apply List.map_congr_left
    intro r hr
    rcases hstat r hr with h | h <;> simp [renderLine, h]
  · intro s ok hmem
    rw [handler_trace_eq] at hmem
    rcases List.mem_append.mp hmem with hm | hm
    · rcases List.mem_flatMap.mp hm with ⟨q, hq, hev⟩
      simp only [targetEvents, List.mem_cons, List.not_mem_nil, or_false] at hev
      rcases hev with hev | hev
      · exact absurd hev (by simp)
      · right
        refine ⟨entryAt env q.1 q.2, ?_, ?_⟩
        · rw [handler_results_eq]
          exact List.mem_map.mpr ⟨q, hq, rfl⟩
        · rw [(Event.metricSubmit.inj hev).1]
          rfl
    · simp only [List.mem_cons, List.not_mem_nil, or_false] at hm
      rcases hm with hm | hm
      · left
        rw [(Event.metricSubmit.inj hm).1]
        rfl
      · exact absurd hm (by simp)

theorem status_never_unknown_witness :
    ((⟨"A", "u", "unavailable", 1⟩ : ResultEntry).status = "available" ∨
      (⟨"A", "u", "unavailable", 1⟩ : ResultEntry).status = "unavailable") ∧
    (⟨"A", "u", "unavailable", 1⟩ : ResultEntry).status ≠ "unknown" :=
  (status_never_unknown (some [("A", "u")]) envB).1
    ⟨"A", "u", "unavailable", 1⟩ (by decide)
